import Mathlib

/-!
Verification of the OpenMic aggregation pipeline
(`src/musicmap/geo.py`, `src/musicmap/aggregator.py`,
`src/musicmap/models/event.py`).

Modelling conventions:
* Python floats carrying coordinates and distances are modelled by `ℚ`;
  the trigonometric `haversine_distance` itself is modelled over `ℝ`
  (see the end of the definitions section) and the distance function is a
  parameter (`hav`) of the list-processing code, so the list-level
  properties hold for every distance function.
* `None` becomes `Option.none`; Python truthiness of an optional float
  (`if event.lat and event.lon:`) is `x` present and nonzero.
* Exceptions raised by a scraper become `Except.error`; the `try/except`
  in `OpenMicAggregator.search` becomes a `match` that keeps the
  accumulator unchanged on `error`.
* Python's stable `list.sort(key=...)` becomes `List.mergeSort` with the
  key comparison (`None` mapped after every number, i.e. to `+inf`).
-/

/-- `models/event.py` `OpenMicEvent`: the unified event record.
`event_date` is only carried, never inspected by the core, so it is
modelled as an opaque optional string. -/
structure OpenMicEvent where
  venue_name : String
  city : String
  state : String
  source : String
  address : Option String := none
  day_of_week : Option String := none
  time : Option String := none
  phone : Option String := none
  genre : Option String := none
  details : Option String := none
  url : Option String := none
  lat : Option ℚ := none
  lon : Option ℚ := none
  distance_miles : Option ℚ := none
  event_date : Option String := none
  event_name : Option String := none
deriving DecidableEq

/-- `geo.py` `CITY_COORDS`: the static city-coordinate table. -/
def CITY_COORDS : List ((String × String) × (ℚ × ℚ)) :=
  [ (("bainbridge", "ga"), (30.9038, -84.5755)),
    (("albany", "ga"), (31.5785, -84.1557)),
    (("atlanta", "ga"), (33.7490, -84.3880)),
    (("savannah", "ga"), (32.0809, -81.0912)),
    (("valdosta", "ga"), (30.8327, -83.2785)),
    (("thomasville", "ga"), (30.8366, -83.9788)),
    (("tallahassee", "fl"), (30.4383, -84.2807)),
    (("panama city", "fl"), (30.1588, -85.6602)),
    (("jacksonville", "fl"), (30.3322, -81.6557)),
    (("gainesville", "fl"), (29.6516, -82.3248)),
    (("pensacola", "fl"), (30.4213, -87.2169)),
    (("destin", "fl"), (30.3935, -86.4958)),
    (("dothan", "al"), (31.2232, -85.3905)),
    (("montgomery", "al"), (32.3792, -86.3077)),
    (("mobile", "al"), (30.6954, -88.0399)),
    (("austin", "tx"), (30.2672, -97.7431)),
    (("houston", "tx"), (29.7604, -95.3698)),
    (("dallas", "tx"), (32.7767, -96.7970)) ]

/-- Python `str.lower()` (ASCII letters): lowercase every character. -/
def pyLower (s : String) : String :=
  String.mk (s.data.map Char.toLower)

/-- Python `str.strip()`: drop leading and trailing whitespace. -/
def pyStrip (s : String) : String :=
  String.mk (((s.data.dropWhile Char.isWhitespace).reverse.dropWhile Char.isWhitespace).reverse)

/-- `geo.py` `get_city_coords`: case-insensitive (city, state) lookup,
the key being `(city.lower().strip(), state.lower().strip())`. -/
def get_city_coords (city state : String) : Option (ℚ × ℚ) :=
  (CITY_COORDS.find? (fun p =>
    p.1 == (pyStrip (pyLower city), pyStrip (pyLower state)))).map (fun p => p.2)

/-- Character class `[A-Za-z\s]` of the regex in
`estimate_coords_from_address`. -/
def isCityChar (c : Char) : Bool :=
  c.isAlpha || c.isWhitespace

/-- Model of `re.search(r'([A-Za-z\s]+),\s*([A-Z]{2})\s*\d*', address)`.
Since `,` is not in `[A-Za-z\s]` and no whitespace is in `[A-Z]`, the
regex backtracks nowhere: a match is exactly a comma preceded by at least
one `[A-Za-z\s]` character and followed, after whitespace, by two
uppercase letters; the leftmost match corresponds to the first such
comma, group 1 being the maximal `[A-Za-z\s]` run ending at that comma
and group 2 the two uppercase letters.  `run` holds the current run,
reversed. -/
def searchCityState : List Char → List Char → Option (String × String)
  | [], _ => none
  | c :: rest, run =>
    if c = ',' then
      if run.isEmpty then searchCityState rest []
      else
        match rest.dropWhile Char.isWhitespace with
        | a :: b :: _ =>
          if a.isUpper && b.isUpper then some (String.mk run.reverse, String.mk [a, b])
          else searchCityState rest []
        | _ => searchCityState rest []
    else if isCityChar c then searchCityState rest (c :: run)
    else searchCityState rest []

/-- `geo.py` `estimate_coords_from_address`: extract "City, ST" from the
free-text address and look it up.  `if not address` covers both `None`
and the empty string. -/
def estimate_coords_from_address : Option String → Option (ℚ × ℚ)
  | none => none
  | some addr =>
    if addr = "" then none
    else
      match searchCityState addr.toList [] with
      | some (city, st) => get_city_coords (pyStrip city) (pyStrip st)
      | none => none

/-- The coordinate-resolution fallback of the loop body of
`filter_by_distance`: table lookup on (city, state), then address
extraction; on success the event's `lat`/`lon` fields are written back. -/
def resolveLatLonFallback (e : OpenMicEvent) : Option (OpenMicEvent × ℚ × ℚ) :=
  match (get_city_coords e.city e.state).orElse (fun _ => estimate_coords_from_address e.address) with
  | some (la, lo) => some ({ e with lat := some la, lon := some lo }, la, lo)
  | none => none

/-- Coordinate resolution of the loop body of `filter_by_distance`:
`if event.lat and event.lon:` uses the carried fields only when both are
present and nonzero (Python truthiness); otherwise the fallback runs.
Returns the possibly updated event together with the coordinates used,
or `none` when the location cannot be determined. -/
def resolveLatLon (e : OpenMicEvent) : Option (OpenMicEvent × ℚ × ℚ) :=
  match e.lat, e.lon with
  | some la, some lo =>
    if la ≠ 0 ∧ lo ≠ 0 then some (e, la, lo) else resolveLatLonFallback e
  | _, _ => resolveLatLonFallback e

/-- The coordinates `filter_by_distance` uses for an event, if any. -/
def resolvedCoords (e : OpenMicEvent) : Option (ℚ × ℚ) :=
  (resolveLatLon e).map (fun p => p.2)

/-- Round half to even, the rounding of Python's builtin `round`. -/
def roundHalfEven (x : ℚ) : ℤ :=
  if x - ⌊x⌋ < 1 / 2 then ⌊x⌋
  else if x - ⌊x⌋ > 1 / 2 then ⌊x⌋ + 1
  else if ⌊x⌋ % 2 = 0 then ⌊x⌋ else ⌊x⌋ + 1

/-- `round(distance, 1)` of `filter_by_distance`, on the rational model. -/
def round1 (x : ℚ) : ℚ :=
  (roundHalfEven (x * 10) : ℚ) / 10

/-- One iteration of the loop of `filter_by_distance`, for the event `e`:
`some` of the updated event if it is kept, `none` if it is dropped.
An unresolvable event is kept with `distance_miles := none`; a resolved
event gets `distance_miles` rounded to one decimal and is kept iff the
unrounded distance is at most `max_miles`.  (The source also writes
`distance_miles` into events it then drops; dropped events do not reach
the result, so the returned list is the same.)  `hav` abstracts the
floating-point `haversine_distance`. -/
def processEvent (hav : ℚ → ℚ → ℚ → ℚ → ℚ) (home_lat home_lon max_miles : ℚ)
    (e : OpenMicEvent) : Option OpenMicEvent :=
  match resolveLatLon e with
  | none => some { e with distance_miles := none }
  | some (e', la, lo) =>
    if hav home_lat home_lon la lo ≤ max_miles then
      some { e' with distance_miles := some (round1 (hav home_lat home_lon la lo)) }
    else none

/-- The sort key comparison of `filter_by_distance`:
`key=lambda e: e.distance_miles if e.distance_miles is not None else float('inf')`,
as a `≤` test. -/
def distLE (a b : OpenMicEvent) : Bool :=
  match a.distance_miles, b.distance_miles with
  | none, none => true
  | none, some _ => false
  | some _, none => true
  | some x, some y => decide (x ≤ y)

/-- `geo.py` `filter_by_distance`: resolve, filter, then stable-sort by
distance with unknown distances last. -/
def filter_by_distance (hav : ℚ → ℚ → ℚ → ℚ → ℚ) (events : List OpenMicEvent)
    (home_lat home_lon max_miles : ℚ) : List OpenMicEvent :=
  ((events.filterMap (processEvent hav home_lat home_lon max_miles)).mergeSort distLE)

/-- One entry of `search`'s `cities` argument:
`{"city": ..., "state": ..., "openmic_us": ...}` with the defaults the
`.get` calls supply. -/
structure CityInfo where
  city : String := ""
  state : String := ""
  openmic_us : Bool := false
deriving DecidableEq

/-- A source adapter: a stable `SOURCE_NAME` and a `scrape` that either
returns events or raises (modelled with `Except`). -/
structure Scraper where
  SOURCE_NAME : String
  scrape : String → String → Except String (List OpenMicEvent)

/-- The scraping loops of `OpenMicAggregator.search`: for each city (empty
city names are skipped), for each scraper (the `openmic.us` scraper only
for cities flagged `openmic_us`), extend the accumulator with the scraped
events; a raising scrape is caught and contributes nothing. -/
def collectEvents (scrapers : List Scraper) (cities : List CityInfo) : List OpenMicEvent :=
  cities.foldl
    (fun acc ci =>
      if ci.city = "" then acc
      else
        scrapers.foldl
          (fun acc2 s =>
            if s.SOURCE_NAME = "openmic.us" ∧ ¬ ci.openmic_us then acc2
            else
              match s.scrape ci.city ci.state with
              | .ok evs => acc2 ++ evs
              | .error _ => acc2)
          acc)
    []

/-- The deduplication key of `OpenMicAggregator._deduplicate`:
`(venue_name.lower().strip(), day_of_week or "", city.lower().strip())`. -/
def dedupKey (e : OpenMicEvent) : String × String × String :=
  (pyStrip (pyLower e.venue_name), e.day_of_week.getD "", pyStrip (pyLower e.city))

/-- The loop of `OpenMicAggregator._deduplicate`, with the `seen` set made
explicit. -/
def dedupeGo (seen : List (String × String × String)) :
    List OpenMicEvent → List OpenMicEvent
  | [] => []
  | e :: rest =>
    if dedupKey e ∈ seen then dedupeGo seen rest
    else e :: dedupeGo (dedupKey e :: seen) rest

/-- `OpenMicAggregator._deduplicate`. -/
def deduplicate (events : List OpenMicEvent) : List OpenMicEvent :=
  dedupeGo [] events

/-- `OpenMicAggregator.search`, from the point where cities, the distance
cap and the home location are in hand: collect, deduplicate, and — only
when both home coordinates are truthy (present and nonzero) — filter and
sort by distance. -/
def search (hav : ℚ → ℚ → ℚ → ℚ → ℚ) (scrapers : List Scraper) (cities : List CityInfo)
    (max_distance : ℚ) (home_lat home_lon : Option ℚ) : List OpenMicEvent :=
  match home_lat, home_lon with
  | some hla, some hlo =>
    if hla ≠ 0 ∧ hlo ≠ 0 then
      filter_by_distance hav (deduplicate (collectEvents scrapers cities)) hla hlo max_distance
    else deduplicate (collectEvents scrapers cities)
  | _, _ => deduplicate (collectEvents scrapers cities)

/-- `geo.py` `math.radians`. -/
noncomputable def radians (x : ℝ) : ℝ :=
  x * Real.pi / 180

/-- `math.atan2(y, x)`. -/
noncomputable def atan2 (y x : ℝ) : ℝ :=
  if 0 < x then Real.arctan (y / x)
  else if x < 0 then
    (if 0 ≤ y then Real.arctan (y / x) + Real.pi else Real.arctan (y / x) - Real.pi)
  else if 0 < y then Real.pi / 2
  else if y < 0 then -(Real.pi / 2)
  else 0

/-- `geo.py` `haversine_distance`: great-circle distance in miles with
Earth radius 3959, over the real numbers (the idealisation of its
floating-point arithmetic). -/
noncomputable def haversine_distance (lat1 lon1 lat2 lon2 : ℝ) : ℝ :=
  let R : ℝ := 3959
  let lat1_rad := radians lat1
  let lat2_rad := radians lat2
  let delta_lat := radians (lat2 - lat1)
  let delta_lon := radians (lon2 - lon1)
  let a := Real.sin (delta_lat / 2) ^ 2 +
    Real.cos lat1_rad * Real.cos lat2_rad * Real.sin (delta_lon / 2) ^ 2
  let c := 2 * atan2 (Real.sqrt a) (Real.sqrt (1 - a))
  R * c

/-- Specification-side deduplication, written from the words of the spec:
keep the first occurrence of each key, drop every later record with an
equal key, preserving order. -/
def firstOccurrences : List OpenMicEvent → List OpenMicEvent
  | [] => []
  | e :: rest =>
    e :: firstOccurrences (rest.filter (fun x => dedupKey x ≠ dedupKey e))
termination_by l => l.length
decreasing_by
  simp only [List.length_cons]
  exact Nat.lt_succ_of_le (rest.length_filter_le _)

/-- Specification-side coordinate resolution, written from the words of
claim C2: step 1 fires whenever the event carries `lat` and `lon`
(present, regardless of value). -/
def resolveCoordsClaimed (e : OpenMicEvent) : Option (ℚ × ℚ) :=
  match e.lat, e.lon with
  | some la, some lo => some (la, lo)
  | _, _ =>
    (get_city_coords e.city e.state).orElse (fun _ => estimate_coords_from_address e.address)

/-- Specification-side coordinate resolution, as amended: step 1 fires
only when the event carries nonzero `lat` and `lon` (Python truthiness);
otherwise table lookup, then address extraction. -/
def resolveCoordsAmended (e : OpenMicEvent) : Option (ℚ × ℚ) :=
  match e.lat, e.lon with
  | some la, some lo =>
    if la ≠ 0 ∧ lo ≠ 0 then some (la, lo)
    else (get_city_coords e.city e.state).orElse (fun _ => estimate_coords_from_address e.address)
  | _, _ =>
    (get_city_coords e.city e.state).orElse (fun _ => estimate_coords_from_address e.address)

/-- A concrete distance function for witnesses: constantly 7 miles. -/
def havConst : ℚ → ℚ → ℚ → ℚ → ℚ :=
  fun _ _ _ _ => 7

/-- A concrete event whose city is in the coordinate table. -/
def evAtlanta : OpenMicEvent :=
  { venue_name := "The Stage", city := "Atlanta", state := "GA", source := "eventbrite" }

/-- A concrete event whose location cannot be resolved. -/
def evNowhere : OpenMicEvent :=
  { venue_name := "Backroom", city := "Nowhere", state := "ZZ", source := "eventbrite" }

/-- A concrete event carrying `lat = 0`: present but falsy coordinates. -/
def evZero : OpenMicEvent :=
  { venue_name := "Null Island Cafe", city := "Atlanta", state := "GA",
    source := "eventbrite", lat := some 0, lon := some 25 }

/-- A concrete scraper that succeeds with one event. -/
def scrOk : Scraper :=
  { SOURCE_NAME := "eventbrite", scrape := fun _ _ => .ok [evNowhere] }

/-- A concrete city entry. -/
def cityAtlanta : CityInfo :=
  { city := "Atlanta", state := "GA" }


/-- The records one scrape call contributes: its events on success, zero
records when it raises. -/
def scrapedOrEmpty (s : Scraper) (city state : String) : List OpenMicEvent :=
  match s.scrape city state with
  | .ok evs => evs
  | .error _ => []

/-- The records one city contributes to a run: nothing for an empty city
name, otherwise the concatenation over the applicable scrapers of each
(scraper, city) pair's records, failing pairs contributing zero. -/
def cityRecords (scrapers : List Scraper) (ci : CityInfo) : List OpenMicEvent :=
  if ci.city = "" then []
  else
    scrapers.flatMap (fun s =>
      if s.SOURCE_NAME = "openmic.us" ∧ ¬ ci.openmic_us then []
      else scrapedOrEmpty s ci.city ci.state)

/-- The same scraper with every raising call replaced by a call that
returns zero records without raising. -/
def catchAll (s : Scraper) : Scraper :=
  { SOURCE_NAME := s.SOURCE_NAME, scrape := fun city state => .ok (scrapedOrEmpty s city state) }

theorem dedupeGo_sublist : ∀ (l : List OpenMicEvent) (seen), (dedupeGo seen l).Sublist l
  | [], _ => by simp [dedupeGo]
  | e :: rest, seen => by
    simp only [dedupeGo]
    by_cases h : dedupKey e ∈ seen
    · simp only [if_pos h]
      exact (dedupeGo_sublist rest seen).cons e
    · simp only [if_neg h]
      exact (dedupeGo_sublist rest _).cons₂ e

theorem firstOccurrences_cons (e : OpenMicEvent) (rest : List OpenMicEvent) :
    firstOccurrences (e :: rest)
      = e :: firstOccurrences (rest.filter (fun x => dedupKey x ≠ dedupKey e)) := by
  rw [firstOccurrences]

theorem dedupeGo_eq_firstOccurrences :
    ∀ (l : List OpenMicEvent) (seen),
      dedupeGo seen l = firstOccurrences (l.filter (fun e => dedupKey e ∉ seen))
  | [], seen => by simp [dedupeGo, firstOccurrences]
  | e :: rest, seen => by
    by_cases h : dedupKey e ∈ seen
    · have hf : (e :: rest).filter (fun x => dedupKey x ∉ seen)
          = rest.filter (fun x => dedupKey x ∉ seen) := by
        simp [List.filter_cons, h]
      rw [dedupeGo, if_pos h, hf]
      exact dedupeGo_eq_firstOccurrences rest seen
    · have hf : (e :: rest).filter (fun x => dedupKey x ∉ seen)
          = e :: rest.filter (fun x => dedupKey x ∉ seen) := by
        simp [List.filter_cons, h]
      rw [dedupeGo, if_neg h, hf, firstOccurrences_cons,
        dedupeGo_eq_firstOccurrences rest (dedupKey e :: seen)]
      congr 1
      rw [List.filter_filter]
      congr 1
      apply List.filter_congr
      intro a _
      simp [List.mem_cons, not_or]

theorem deduplicate_eq_firstOccurrences (l : List OpenMicEvent) :
    deduplicate l = firstOccurrences l := by
  rw [deduplicate, dedupeGo_eq_firstOccurrences]
  congr 1
  simp

theorem dedupeGo_keys_nodup :
    ∀ (l : List OpenMicEvent) (seen),
      ((dedupeGo seen l).map dedupKey).Nodup ∧
        ∀ k ∈ (dedupeGo seen l).map dedupKey, k ∉ seen
  | [], seen => by simp [dedupeGo]
  | e :: rest, seen => by
    by_cases h : dedupKey e ∈ seen
    · rw [dedupeGo, if_pos h]
      exact dedupeGo_keys_nodup rest seen
    · rw [dedupeGo, if_neg h]
      obtain ⟨ih1, ih2⟩ := dedupeGo_keys_nodup rest (dedupKey e :: seen)
      refine ⟨List.nodup_cons.mpr ⟨fun hk => ?_, ih1⟩, ?_⟩
      · exact (ih2 _ hk) (List.mem_cons_self _ _)
      · intro k hk
        rcases List.mem_cons.mp hk with hk | hk
        · exact hk ▸ h
        · exact fun hs => (ih2 _ hk) (List.mem_cons_of_mem _ hs)

theorem dedupeGo_eq_self :
    ∀ (l : List OpenMicEvent) (seen),
      (l.map dedupKey).Nodup → (∀ e ∈ l, dedupKey e ∉ seen) → dedupeGo seen l = l
  | [], _, _, _ => rfl
  | e :: rest, seen, hnd, hseen => by
    rw [dedupeGo, if_neg (hseen e (List.mem_cons_self _ _))]
    congr 1
    have hnd' : (∀ x ∈ rest, ¬dedupKey x = dedupKey e) ∧ (rest.map dedupKey).Nodup := by
      simpa using hnd
    refine dedupeGo_eq_self rest _ hnd'.2 ?_
    intro x hx
    rw [List.mem_cons]
    push_neg
    exact ⟨hnd'.1 x hx, hseen x (List.mem_cons_of_mem _ hx)⟩

/-- C4: `_deduplicate` keeps exactly the first occurrence of each
DedupKey — it equals the specification-side `firstOccurrences`, which
drops a record iff an earlier record has an equal key — survivors appear
in their original relative order (the output is a sublist of the input),
and the surviving keys are pairwise distinct. -/
theorem dedupe_keeps_first_occurrence (l : List OpenMicEvent) :
    deduplicate l = firstOccurrences l ∧ (deduplicate l).Sublist l ∧
      ((deduplicate l).map dedupKey).Nodup :=
  ⟨deduplicate_eq_firstOccurrences l, dedupeGo_sublist l [],
    (dedupeGo_keys_nodup l []).1⟩

/-- C8: deduplication is idempotent: `dedupe(dedupe(X)) = dedupe(X)`. -/
theorem dedupe_idempotent (l : List OpenMicEvent) :
    deduplicate (deduplicate l) = deduplicate l :=
  dedupeGo_eq_self _ _ (dedupeGo_keys_nodup l []).1 (fun _ _ => List.not_mem_nil _)

theorem foldl_eq_append_flatMap {α β : Type} (f : List β → α → List β) (g : α → List β)
    (h : ∀ a x, f a x = a ++ g x) :
    ∀ (l : List α) (acc : List β), l.foldl f acc = acc ++ l.flatMap g
  | [], acc => by simp
  | x :: xs, acc => by
    rw [List.foldl_cons, h, foldl_eq_append_flatMap f g h xs, List.flatMap_cons,
      List.append_assoc]

theorem collectEvents_eq_flatMap (scrapers : List Scraper) (cities : List CityInfo) :
    collectEvents scrapers cities = cities.flatMap (cityRecords scrapers) := by
  rw [collectEvents, foldl_eq_append_flatMap _ (cityRecords scrapers), List.nil_append]
  intro acc ci
  rw [cityRecords]
  by_cases hc : ci.city = ""
  · simp [hc]
  · rw [if_neg hc, if_neg hc,
      foldl_eq_append_flatMap _
        (fun s => if s.SOURCE_NAME = "openmic.us" ∧ ¬ ci.openmic_us then []
          else scrapedOrEmpty s ci.city ci.state)]
    intro acc2 s
    by_cases hg : s.SOURCE_NAME = "openmic.us" ∧ ¬ ci.openmic_us
    · simp [hg]
    · rw [if_neg hg, if_neg hg, scrapedOrEmpty]
      cases s.scrape ci.city ci.state <;> simp

/-- C3: a raising scrape call is contained at the call site: the collected
run equals the concatenation, over the (city, scraper) pairs in
processing order, of each pair's records, where a failing pair
contributes zero records; equivalently, replacing every raising call by
one returning zero records leaves the whole collection unchanged, so
every record from every other pair is still returned and no failure
aborts the run (the function is total). -/
theorem adapter_failures_isolated (scrapers : List Scraper) (cities : List CityInfo) :
    collectEvents scrapers cities = cities.flatMap (cityRecords scrapers)
    ∧ collectEvents scrapers cities = collectEvents (scrapers.map catchAll) cities := by
  refine ⟨collectEvents_eq_flatMap scrapers cities, ?_⟩
  rw [collectEvents_eq_flatMap, collectEvents_eq_flatMap]
  apply List.flatMap_congr
  intro ci _
  rw [cityRecords, cityRecords]
  by_cases hc : ci.city = ""
  · simp [hc]
  · rw [if_neg hc, if_neg hc, List.flatMap_map]
    rfl

theorem mem_filter_by_distance {hav : ℚ → ℚ → ℚ → ℚ → ℚ} {es : List OpenMicEvent}
    {hla hlo mm : ℚ} {x : OpenMicEvent} :
    x ∈ filter_by_distance hav es hla hlo mm
      ↔ ∃ e ∈ es, processEvent hav hla hlo mm e = some x := by
  rw [filter_by_distance, List.mem_mergeSort, List.mem_filterMap]

theorem resolveLatLonFallback_fields {e e' : OpenMicEvent} {la lo : ℚ}
    (h : resolveLatLonFallback e = some (e', la, lo)) :
    e'.lat = some la ∧ e'.lon = some lo := by
  rw [resolveLatLonFallback] at h
  rcases hco : (get_city_coords e.city e.state).orElse
      (fun _ => estimate_coords_from_address e.address) with _ | ⟨p1, p2⟩ <;>
    rw [hco] at h
  · exact absurd h (by simp)
  · obtain ⟨rfl, rfl, rfl⟩ : { e with lat := some p1, lon := some p2 } = e' ∧ p1 = la ∧ p2 = lo := by
      simpa using h
    exact ⟨rfl, rfl⟩

theorem resolveLatLon_fields {e e' : OpenMicEvent} {la lo : ℚ}
    (h : resolveLatLon e = some (e', la, lo)) :
    e'.lat = some la ∧ e'.lon = some lo := by
  unfold resolveLatLon at h
  split at h
  · rename_i la0 lo0 hl ho
    split at h
    · obtain ⟨rfl, rfl, rfl⟩ : e = e' ∧ la0 = la ∧ lo0 = lo := by simpa using h
      exact ⟨hl, ho⟩
    · exact resolveLatLonFallback_fields h
  · exact resolveLatLonFallback_fields h

theorem distLE_trans (a b c : OpenMicEvent) (hab : distLE a b) (hbc : distLE b c) :
    distLE a c := by
  rcases ha : a.distance_miles with _ | x <;> rcases hb : b.distance_miles with _ | y <;>
    rcases hc : c.distance_miles with _ | z <;> simp_all [distLE]
  exact le_trans hab hbc

theorem distLE_total (a b : OpenMicEvent) : distLE a b || distLE b a := by
  rcases ha : a.distance_miles with _ | x <;> rcases hb : b.distance_miles with _ | y <;>
    simp_all [distLE]
  exact le_total x y

theorem filterMap_unknowns (hav : ℚ → ℚ → ℚ → ℚ → ℚ) (hla hlo mm : ℚ) :
    ∀ es : List OpenMicEvent,
      (es.filterMap (processEvent hav hla hlo mm)).filter
          (fun e => e.distance_miles.isNone)
        = (es.filter (fun e => (resolveLatLon e).isNone)).map
            (fun e => { e with distance_miles := none })
  | [] => rfl
  | e :: rest => by
    have ih := filterMap_unknowns hav hla hlo mm rest
    rcases hres : resolveLatLon e with _ | ⟨⟨e', la, lo⟩⟩
    · simp [List.filterMap_cons, List.filter_cons, processEvent, hres, ih]
    · by_cases hle : hav hla hlo la lo ≤ mm
      · simp [List.filterMap_cons, List.filter_cons, processEvent, hres, hle, ih]
      · simp [List.filterMap_cons, List.filter_cons, processEvent, hres, hle, ih]

/-- C1: for every event `filter_by_distance` processes, if its location
resolves then its updated record is in the returned list iff the computed
distance to the reference point is at most `max_miles` (for every
`max_miles`, including 0), and if its location does not resolve the
record is in the returned list with `distance_miles = none`,
unconditionally. -/
theorem filter_keeps_iff_within (hav : ℚ → ℚ → ℚ → ℚ → ℚ) (es : List OpenMicEvent)
    (hla hlo mm : ℚ) (e : OpenMicEvent) (he : e ∈ es) :
    (∀ e' la lo, resolveLatLon e = some (e', la, lo) →
      ({ e' with distance_miles := some (round1 (hav hla hlo la lo)) }
          ∈ filter_by_distance hav es hla hlo mm
        ↔ hav hla hlo la lo ≤ mm))
    ∧ (resolveLatLon e = none →
        { e with distance_miles := none } ∈ filter_by_distance hav es hla hlo mm) := by
  constructor
  · intro e' la lo hres
    constructor
    · intro hmem
      obtain ⟨e2, he2, hproc⟩ := mem_filter_by_distance.mp hmem
      simp only [processEvent] at hproc
      rcases hres2 : resolveLatLon e2 with _ | ⟨⟨e2', la2, lo2⟩⟩ <;>
        simp only [hres2] at hproc
      · have hd := congrArg OpenMicEvent.distance_miles (Option.some.inj hproc)
        simp at hd
      · by_cases hle : hav hla hlo la2 lo2 ≤ mm
        · rw [if_pos hle] at hproc
          have heq := Option.some.inj hproc
          obtain ⟨h2a, h2b⟩ := resolveLatLon_fields hres2
          obtain ⟨h1a, h1b⟩ := resolveLatLon_fields hres
          have hlat := congrArg OpenMicEvent.lat heq
          have hlon := congrArg OpenMicEvent.lon heq
          simp only at hlat hlon
          rw [h2a, h1a] at hlat
          rw [h2b, h1b] at hlon
          obtain rfl : la2 = la := Option.some.inj hlat
          obtain rfl : lo2 = lo := Option.some.inj hlon
          exact hle
        · rw [if_neg hle] at hproc
          exact absurd hproc (by simp)
    · intro hle
      exact mem_filter_by_distance.mpr ⟨e, he, by simp only [processEvent, hres, if_pos hle]⟩
  · intro hres
    exact mem_filter_by_distance.mpr ⟨e, he, by simp only [processEvent, hres]⟩

theorem filter_keeps_iff_within_witness :
    ({ evAtlanta with
        lat := some 33.7490
        lon := some (-84.3880)
        distance_miles := some 7 }
      ∈ filter_by_distance havConst [evAtlanta, evNowhere] 0 0 10)
    ∧ ({ evNowhere with distance_miles := none }
      ∈ filter_by_distance havConst [evAtlanta, evNowhere] 0 0 0) := by
  constructor
  · have he : round1 (havConst 0 0 33.7490 (-84.3880)) = 7 := by
      norm_num [round1, havConst, roundHalfEven]
    have h := ((filter_keeps_iff_within havConst [evAtlanta, evNowhere] 0 0 10 evAtlanta
        (List.mem_cons_self _ _)).1
      { evAtlanta with lat := some 33.7490, lon := some (-84.3880) } 33.7490 (-84.3880)
      rfl).mpr (by norm_num [havConst])
    rw [he] at h
    exact h
  · exact (filter_keeps_iff_within havConst [evAtlanta, evNowhere] 0 0 0 evNowhere
      (List.mem_cons_of_mem _ (List.mem_cons_self _ _))).2 rfl

/-- C5: the list `filter_by_distance` returns is sorted ascending by the
stored distance (the retained, rounded `distance_miles`; the unrounded
value is not kept), with every unknown-distance record after every
known-distance record, and the unknown-distance records appear in
exactly their relative input order (stability). -/
theorem filter_result_sorted (hav : ℚ → ℚ → ℚ → ℚ → ℚ) (es : List OpenMicEvent)
    (hla hlo mm : ℚ) :
    (filter_by_distance hav es hla hlo mm).Pairwise (fun a b => distLE a b = true)
    ∧ (filter_by_distance hav es hla hlo mm).filter (fun e => e.distance_miles.isNone)
        = (es.filter (fun e => (resolveLatLon e).isNone)).map
            (fun e => { e with distance_miles := none }) := by
  constructor
  · rw [filter_by_distance]
    exact List.sorted_mergeSort distLE_trans distLE_total _
  · have hfm := filterMap_unknowns hav hla hlo mm es
    have hpw : ((es.filterMap (processEvent hav hla hlo mm)).filter
        (fun e => e.distance_miles.isNone)).Pairwise (fun a b => distLE a b = true) := by
      apply List.pairwise_of_forall_mem_list
      intro a ha b hb
      have ha' : a.distance_miles.isNone = true := (List.mem_filter.mp ha).2
      have hb' : b.distance_miles.isNone = true := (List.mem_filter.mp hb).2
      rw [Option.isNone_iff_eq_none] at ha' hb'
      simp [distLE, ha', hb']
    have hsub : List.Sublist
        ((es.filterMap (processEvent hav hla hlo mm)).filter
          (fun e => e.distance_miles.isNone))
        (filter_by_distance hav es hla hlo mm) := by
      rw [filter_by_distance]
      exact List.sublist_mergeSort distLE_trans distLE_total hpw (List.filter_sublist _)
    have hsub2 := hsub.filter (fun e => e.distance_miles.isNone)
    rw [List.filter_filter] at hsub2
    have hid : ((es.filterMap (processEvent hav hla hlo mm)).filter
        (fun e => e.distance_miles.isNone && e.distance_miles.isNone))
        = (es.filterMap (processEvent hav hla hlo mm)).filter
            (fun e => e.distance_miles.isNone) := by
      apply List.filter_congr
      intro a _
      exact Bool.and_self _
    rw [hid] at hsub2
    have hperm : List.Perm
        ((filter_by_distance hav es hla hlo mm).filter
          (fun e => e.distance_miles.isNone))
        ((es.filterMap (processEvent hav hla hlo mm)).filter
          (fun e => e.distance_miles.isNone)) := by
      rw [filter_by_distance]
      exact (List.mergeSort_perm _ _).filter _
    have hEq : (es.filterMap (processEvent hav hla hlo mm)).filter
        (fun e => e.distance_miles.isNone)
        = (filter_by_distance hav es hla hlo mm).filter
            (fun e => e.distance_miles.isNone) :=
      hsub2.eq_of_length hperm.length_eq.symm
    rw [← hEq]
    exact hfm

/-- C7: raising the threshold never drops a record: with the input list,
reference point and distance function fixed, every record returned at
`max_miles = m1` is also returned at any `m2 ≥ m1`. -/
theorem filter_monotone_max_miles (hav : ℚ → ℚ → ℚ → ℚ → ℚ) (es : List OpenMicEvent)
    (hla hlo m1 m2 : ℚ) (h12 : m1 ≤ m2) (x : OpenMicEvent)
    (hx : x ∈ filter_by_distance hav es hla hlo m1) :
    x ∈ filter_by_distance hav es hla hlo m2 := by
  obtain ⟨e, he, hp⟩ := mem_filter_by_distance.mp hx
  refine mem_filter_by_distance.mpr ⟨e, he, ?_⟩
  simp only [processEvent] at hp ⊢
  rcases hres : resolveLatLon e with _ | ⟨⟨e', la, lo⟩⟩ <;> simp only [hres] at hp ⊢
  · exact hp
  · by_cases hle : hav hla hlo la lo ≤ m1
    · rw [if_pos hle] at hp
      rw [if_pos (le_trans hle h12)]
      exact hp
    · rw [if_neg hle] at hp
      exact absurd hp (by simp)

theorem filter_monotone_max_miles_witness :
    { evNowhere with distance_miles := none }
      ∈ filter_by_distance havConst [evNowhere] 0 0 1 :=
  filter_monotone_max_miles havConst [evNowhere] 0 0 0 1 (by norm_num) _
    (mem_filter_by_distance.mpr ⟨evNowhere, List.mem_cons_self _ _, rfl⟩)

/-- Counterexample to C2 as stated: `evZero` carries both `lat` (= 0) and
`lon` (= 25), yet `filter_by_distance` does not use them — the truthiness
test `if event.lat and event.lon:` fails on 0.0 and the code falls back
to the (city, state) table, resolving Atlanta's coordinates instead. -/
theorem carried_zero_lat_not_used :
    evZero.lat = some 0 ∧ evZero.lon = some 25
    ∧ resolvedCoords evZero = some (33.7490, -84.3880)
    ∧ resolveCoordsClaimed evZero = some (0, 25)
    ∧ resolvedCoords evZero ≠ resolveCoordsClaimed evZero := by
  refine ⟨rfl, rfl, rfl, rfl, ?_⟩
  intro hcontra
  have h1 : resolvedCoords evZero = some ((33.7490 : ℚ), (-84.3880 : ℚ)) := rfl
  have h2 : resolveCoordsClaimed evZero = some ((0 : ℚ), (25 : ℚ)) := rfl
  rw [h1, h2] at hcontra
  simp only [Option.some.injEq, Prod.mk.injEq] at hcontra
  exact absurd hcontra.1 (by norm_num)

theorem resolveLatLonFallback_map (e : OpenMicEvent) :
    (resolveLatLonFallback e).map (fun p => p.2)
      = (get_city_coords e.city e.state).orElse
          (fun _ => estimate_coords_from_address e.address) := by
  rw [resolveLatLonFallback]
  rcases hco : (get_city_coords e.city e.state).orElse
      (fun _ => estimate_coords_from_address e.address) with _ | ⟨p1, p2⟩ <;> rfl

/-- C2 (amended): the coordinates `filter_by_distance` uses follow the
first-match-wins precedence (1) the event's own `lat`/`lon` when both are
present AND nonzero (Python truthiness, not mere presence), (2) the
case-insensitive (city, state) table lookup, (3) "City, ST" extraction
from the address with a table lookup on the extracted pair; and when no
step resolves, the event is kept with `distance_miles` set to `none`. -/
theorem resolution_precedence_amended (e : OpenMicEvent) :
    resolvedCoords e = resolveCoordsAmended e
    ∧ (resolveLatLon e = none →
        ∀ (hav : ℚ → ℚ → ℚ → ℚ → ℚ) (hla hlo mm : ℚ),
          processEvent hav hla hlo mm e = some { e with distance_miles := none }) := by
  constructor
  · rcases hl : e.lat with _ | la <;> rcases ho : e.lon with _ | lo
    · have h1 : resolveLatLon e = resolveLatLonFallback e := by
        unfold resolveLatLon
        rw [hl, ho]
      have h2 : resolveCoordsAmended e = (get_city_coords e.city e.state).orElse
          (fun _ => estimate_coords_from_address e.address) := by
        unfold resolveCoordsAmended
        rw [hl, ho]
      rw [resolvedCoords, h1, h2, resolveLatLonFallback_map]
    · have h1 : resolveLatLon e = resolveLatLonFallback e := by
        unfold resolveLatLon
        rw [hl, ho]
      have h2 : resolveCoordsAmended e = (get_city_coords e.city e.state).orElse
          (fun _ => estimate_coords_from_address e.address) := by
        unfold resolveCoordsAmended
        rw [hl, ho]
      rw [resolvedCoords, h1, h2, resolveLatLonFallback_map]
    · have h1 : resolveLatLon e = resolveLatLonFallback e := by
        unfold resolveLatLon
        rw [hl, ho]
      have h2 : resolveCoordsAmended e = (get_city_coords e.city e.state).orElse
          (fun _ => estimate_coords_from_address e.address) := by
        unfold resolveCoordsAmended
        rw [hl, ho]
      rw [resolvedCoords, h1, h2, resolveLatLonFallback_map]
    · have h1 : resolveLatLon e
          = if la ≠ 0 ∧ lo ≠ 0 then some (e, la, lo) else resolveLatLonFallback e := by
        unfold resolveLatLon
        rw [hl, ho]
      have h2 : resolveCoordsAmended e
          = if la ≠ 0 ∧ lo ≠ 0 then some (la, lo)
            else (get_city_coords e.city e.state).orElse
              (fun _ => estimate_coords_from_address e.address) := by
        unfold resolveCoordsAmended
        rw [hl, ho]
      rw [resolvedCoords, h1, h2]
      by_cases hnz : la ≠ 0 ∧ lo ≠ 0
      · rw [if_pos hnz, if_pos hnz]
        rfl
      · rw [if_neg hnz, if_neg hnz, resolveLatLonFallback_map]
  · intro h hav hla hlo mm
    simp only [processEvent, h]

theorem resolution_precedence_amended_witness :
    resolvedCoords evZero = resolveCoordsAmended evZero
    ∧ processEvent havConst 0 0 5 evNowhere = some { evNowhere with distance_miles := none } :=
  ⟨(resolution_precedence_amended evZero).1,
    (resolution_precedence_amended evNowhere).2 rfl havConst 0 0 5⟩

/-- C6: with no reference point (a missing home latitude or longitude),
`search` returns exactly the deduplicated collection in accumulation
order: no distance filtering or sorting runs, the returned records are a
sublist of the collection with every field untouched, and if every
collected record has an unresolved `distance_miles` then so does every
returned record. -/
theorem search_no_reference_point (hav : ℚ → ℚ → ℚ → ℚ → ℚ) (scrapers : List Scraper)
    (cities : List CityInfo) (md : ℚ) (home_lat home_lon : Option ℚ)
    (h : home_lat = none ∨ home_lon = none) :
    search hav scrapers cities md home_lat home_lon
        = deduplicate (collectEvents scrapers cities)
    ∧ List.Sublist (search hav scrapers cities md home_lat home_lon)
        (collectEvents scrapers cities)
    ∧ ((∀ e ∈ collectEvents scrapers cities, e.distance_miles = none) →
        ∀ e ∈ search hav scrapers cities md home_lat home_lon, e.distance_miles = none) := by
  have hs : search hav scrapers cities md home_lat home_lon
      = deduplicate (collectEvents scrapers cities) := by
    rcases h with rfl | rfl
    · cases home_lon <;> rfl
    · cases home_lat <;> rfl
  refine ⟨hs, ?_, ?_⟩
  · rw [hs]
    exact dedupeGo_sublist _ _
  · intro hall e he
    rw [hs] at he
    exact hall e ((dedupeGo_sublist _ _).subset he)

theorem search_no_reference_point_witness :
    search havConst [scrOk] [cityAtlanta] 50 none (some 3)
      = deduplicate (collectEvents [scrOk] [cityAtlanta]) :=
  (search_no_reference_point havConst [scrOk] [cityAtlanta] 50 none (some 3) (Or.inl rfl)).1

/-- C10: the geo stage is gated on truthiness, not presence: when the
reference point is present but its latitude or longitude equals 0.0,
`search` skips distance resolution, filtering and sorting entirely and
returns the deduplicated collection in accumulation order. -/
theorem search_zero_reference_coordinate (hav : ℚ → ℚ → ℚ → ℚ → ℚ)
    (scrapers : List Scraper) (cities : List CityInfo) (md : ℚ) (hla hlo : ℚ)
    (h : hla = 0 ∨ hlo = 0) :
    search hav scrapers cities md (some hla) (some hlo)
      = deduplicate (collectEvents scrapers cities) := by
  have hc : ¬(hla ≠ 0 ∧ hlo ≠ 0) := by
    rcases h with rfl | rfl
    · exact fun hk => hk.1 rfl
    · exact fun hk => hk.2 rfl
  simp only [search, if_neg hc]

theorem search_zero_reference_coordinate_witness :
    search havConst [scrOk] [cityAtlanta] 50 (some 0) (some 3)
      = deduplicate (collectEvents [scrOk] [cityAtlanta]) :=
  search_zero_reference_coordinate havConst [scrOk] [cityAtlanta] 50 0 3 (Or.inl rfl)

theorem haversine_self (la lo : ℝ) : haversine_distance la lo la lo = 0 := by
  have hz : ∀ x : ℝ, radians (x - x) / 2 = 0 := by
    intro x
    rw [radians, sub_self, zero_mul, zero_div, zero_div]
  simp only [haversine_distance]
  rw [hz, hz]
  simp only [Real.sin_zero]
  norm_num [atan2, Real.sqrt_one, Real.arctan_zero]

theorem haversine_symm (lat1 lon1 lat2 lon2 : ℝ) :
    haversine_distance lat1 lon1 lat2 lon2 = haversine_distance lat2 lon2 lat1 lon1 := by
  have key : ∀ x y : ℝ, Real.sin (radians (x - y) / 2) ^ 2 = Real.sin (radians (y - x) / 2) ^ 2 := by
    intro x y
    have hneg : radians (x - y) / 2 = -(radians (y - x) / 2) := by
      rw [radians, radians]
      ring
    rw [hneg, Real.sin_neg]
    ring
  simp only [haversine_distance]
  rw [key lat1 lat2, key lon1 lon2,
    mul_comm (Real.cos (radians lat2)) (Real.cos (radians lat1))]

/-- C9: the great-circle distance (Earth radius 3959 miles, modelled over
the real numbers) is symmetric — exactly, hence within any floating-point
tolerance — and the distance from (30.9038, -84.5755) to itself is 0,
well within the 0.05-mile tolerance. -/
theorem haversine_symmetric_and_self_zero :
    (∀ lat1 lon1 lat2 lon2 : ℝ,
      haversine_distance lat1 lon1 lat2 lon2 = haversine_distance lat2 lon2 lat1 lon1)
    ∧ |haversine_distance 30.9038 (-84.5755) 30.9038 (-84.5755) - 0| ≤ 0.05 := by
  refine ⟨haversine_symm, ?_⟩
  rw [haversine_self]
  norm_num
